import Mathlib

/-!
Verification of the UELoS (University Equipment Loan System) single-file
JavaScript skeleton (`src/uelos.js`) against its natural-language
specification.

Conventions of the shallow embedding:
* A JavaScript `Date` is its time value: milliseconds since the Unix epoch,
  as an `Int`.
* JavaScript strings are `String`; statuses and roles are the string
  literals the source uses (`'Available'`, `'Active'`, `'Student'`, ...).
* An optional / possibly-`undefined` value is an `Option`.
* A fallible operation returns `Except` together with the (possibly updated)
  system state; a thrown JS `Error` is the `Except.error` branch.
Methods of `uelos.js` that are implemented (the entity constructors and the
two due-date strategies) are translated directly.  The service and
controller methods of the source only throw `Error('Not implemented')`;
they are embedded as such in the `Impl` namespace, and, separately,
modelled from the specification text in the `Spec` namespace so the
behavioural claims about them can be stated and settled.
-/

/-! ## JavaScript UTC calendar arithmetic -/

/-- Milliseconds in one UTC day (ECMAScript `msPerDay`). -/
def msPerDay : Int := 86400000

/-- ECMAScript `Day(t)`: the day number containing time value `t`
(floor division, so times before the epoch fall in negative days). -/
def jsDay (t : Int) : Int := Int.fdiv t msPerDay

/-- Day-of-month (1..31) of a day number `z` counted from 1970-01-01,
following the standard civil-from-days algorithm over the proleptic
Gregorian calendar used by ECMAScript `DateFromTime`. -/
def civilDayOfMonth (z : Int) : Int :=
  let zs := z + 719468
  let era := Int.fdiv zs 146097
  let doe := (zs - era * 146097).toNat
  let yoe := (doe - doe / 1460 + doe / 36524 - doe / 146096) / 365
  let doy := doe - (365 * yoe + yoe / 4 - yoe / 100)
  let mp := (5 * doy + 2) / 153
  Int.ofNat (doy - (153 * mp + 2) / 5 + 1)

/-- JavaScript `Date.prototype.getUTCDate`: the UTC day-of-month of `t`. -/
def jsGetUTCDate (t : Int) : Int := civilDayOfMonth (jsDay t)

/-- JavaScript `Date.prototype.setUTCDate(v)`.  ECMAScript computes
`MakeDate(MakeDay(year(t), month(t), v), TimeWithinDay(t))`; replacing the
day-of-month within the same year/month while keeping the time of day is
exactly shifting `t` by `(v - getUTCDate t)` whole days. -/
def jsSetUTCDate (t v : Int) : Int := t + (v - jsGetUTCDate t) * msPerDay

/-- Days since the epoch of a civil date `y-m-d` (standard days-from-civil
algorithm), used only to name concrete calendar dates in theorems. -/
def daysFromCivil (y : Int) (m d : Nat) : Int :=
  let ya := if m ≤ 2 then y - 1 else y
  let era := Int.fdiv ya 400
  let yoe := (ya - era * 400).toNat
  let mp := if 2 < m then m - 3 else m + 9
  let doy := (153 * mp + 2) / 5 + d - 1
  let doe := yoe * 365 + yoe / 4 - yoe / 100 + doy
  era * 146097 + Int.ofNat doe - 719468

/-- The time value of midnight UTC on the civil date `y-m-d`. -/
def utcDate (y : Int) (m d : Nat) : Int := daysFromCivil y m d * msPerDay

/-! ## Domain entities (`uelos.js` Domain Layer) -/

/-- `class User { constructor(id, name, email, role) }`. -/
structure User where
  id : String
  name : String
  email : String
  role : String
deriving Repr, DecidableEq

/-- `class Student extends User`: `super(id, name, email, 'Student')`. -/
def Student.make (id name email : String) : User :=
  ⟨id, name, email, "Student"⟩

/-- `class Staff extends User`: `super(id, name, email, 'Staff')`. -/
def Staff.make (id name email : String) : User :=
  ⟨id, name, email, "Staff"⟩

/-- `class Equipment { id, name, category, status }`. -/
structure Equipment where
  id : String
  name : String
  category : String
  status : String
deriving Repr, DecidableEq

/-- The `Equipment` constructor; `status` omitted (`none`) takes the
default `'Available'`. -/
def Equipment.construct (id name category : String)
    (status : Option String) : Equipment :=
  ⟨id, name, category, status.getD "Available"⟩

/-- `class LoanRequest { id, studentId, equipmentId, startDate, endDate, status, createdAt }`. -/
structure LoanRequest where
  id : String
  studentId : String
  equipmentId : String
  startDate : Int
  endDate : Int
  status : String
  createdAt : Int
deriving Repr, DecidableEq

/-- The `LoanRequest` constructor; `status` defaults to `'Pending'` and
`createdAt` defaults to `new Date()`, i.e. the ambient clock `now`. -/
def LoanRequest.construct (now : Int) (id studentId equipmentId : String)
    (startDate endDate : Int) (status : Option String)
    (createdAt : Option Int) : LoanRequest :=
  ⟨id, studentId, equipmentId, startDate, endDate,
    status.getD "Pending", createdAt.getD now⟩

/-- `class Loan { id, studentId, equipmentId, startDate, dueDate, status, returnedAt }`. -/
structure Loan where
  id : String
  studentId : String
  equipmentId : String
  startDate : Int
  dueDate : Int
  status : String
  returnedAt : Option Int
deriving Repr, DecidableEq

/-- The `Loan` constructor; `status` defaults to `'Active'` and
`returnedAt` defaults to `undefined` (`none`). -/
def Loan.construct (id studentId equipmentId : String)
    (startDate dueDate : Int) (status : Option String)
    (returnedAt : Option Int) : Loan :=
  ⟨id, studentId, equipmentId, startDate, dueDate,
    status.getD "Active", returnedAt⟩

/-- `class Fine { id, loanId, amountCents, status, createdAt, paidAt, receiptRef }`. -/
structure Fine where
  id : String
  loanId : String
  amountCents : Int
  status : String
  createdAt : Int
  paidAt : Option Int
  receiptRef : Option String
deriving Repr, DecidableEq

/-- The `Fine` constructor; `status` defaults to `'Unpaid'`, `createdAt`
defaults to `new Date()` (the ambient clock `now`), `paidAt` and
`receiptRef` default to `undefined`. -/
def Fine.construct (now : Int) (id loanId : String) (amountCents : Int)
    (status : Option String) (createdAt : Option Int)
    (paidAt : Option Int) (receiptRef : Option String) : Fine :=
  ⟨id, loanId, amountCents, status.getD "Unpaid", createdAt.getD now,
    paidAt, receiptRef⟩

/-! ## Due-date strategies (implemented in the source) -/

/-- `class FixedDaysStrategy { constructor(days = 7) }`. -/
structure FixedDaysStrategy where
  days : Int
deriving Repr, DecidableEq

/-- `FixedDaysStrategy.calculate(startDate)`:
`const d = new Date(startDate); d.setUTCDate(d.getUTCDate() + this.days); return d;` -/
def FixedDaysStrategy.calculate (s : FixedDaysStrategy)
    (startDate : Int) : Int :=
  jsSetUTCDate startDate (jsGetUTCDate startDate + s.days)

/-- `class CategoryBasedStrategy { constructor(rules = {}) }`; the rules
object is a finite map from category names to day counts. -/
structure CategoryBasedStrategy where
  rules : List (String × Int)
deriving Repr, DecidableEq

/-- Property lookup `rules[c]` on the rules object. -/
def rulesLookup (rules : List (String × Int)) (c : String) : Option Int :=
  (rules.find? (fun p => p.1 == c)).map (fun p => p.2)

/-- `CategoryBasedStrategy.calculate(startDate, equipment)`:
`const days = this.rules[equipment?.category] ?? 7;` then the same
`setUTCDate` shift as the fixed-days strategy.  `equipment` may be
`undefined` (optional chaining in the source), hence `Option`. -/
def CategoryBasedStrategy.calculate (s : CategoryBasedStrategy)
    (startDate : Int) (equipment : Option Equipment) : Int :=
  let days := (match equipment with
    | some e => rulesLookup s.rules e.category
    | none => none).getD 7
  jsSetUTCDate startDate (jsGetUTCDate startDate + days)

/-! ## Errors and system state -/

/-- The specification's five recoverable error kinds (§7). -/
inductive DomainError where
  | ValidationError
  | NotFoundError
  | InvalidStateError
  | AvailabilityError
  | PaymentError
deriving Repr, DecidableEq

/-- `reviewRequest` decisions: `'Approve' | 'Reject'`. -/
inductive Decision where
  | Approve
  | Reject
deriving Repr, DecidableEq

/-- The combined contents of the five repositories, plus a counter used to
mint fresh ids. -/
structure SysState where
  users : List User
  equipments : List Equipment
  requests : List LoanRequest
  loans : List Loan
  fines : List Fine
  nextId : Nat
deriving Repr, DecidableEq

/-- The empty initial state: all repositories empty. -/
def initState : SysState := ⟨[], [], [], [], [], 0⟩

/-- `EquipmentRepo.getById`. -/
def findEquipment (st : SysState) (id : String) : Option Equipment :=
  st.equipments.find? (fun e => e.id == id)

/-- `LoanRequestRepo.getById`. -/
def findRequest (st : SysState) (id : String) : Option LoanRequest :=
  st.requests.find? (fun r => r.id == id)

/-- `LoanRepo.getById`. -/
def findLoan (st : SysState) (id : String) : Option Loan :=
  st.loans.find? (fun l => l.id == id)

/-- `FineRepo.findByLoan` viewed as a count of matching fines. -/
def countFines (st : SysState) (loanId : String) : Nat :=
  st.fines.countP (fun f => f.loanId == loanId)

/-- The fine with id `id` (`payFine`'s lookup). -/
def findFine (st : SysState) (id : String) : Option Fine :=
  st.fines.find? (fun f => f.id == id)

/-! ## As-implemented service and controller methods (`Impl`)

Every service/controller method in `uelos.js` consists of `void`-ing its
arguments and `throw new Error('Not implemented')` (or `throw new
Error('NI')` is confined to the repo interfaces); none reads or writes any
repository.  Each is embedded as a function that returns the thrown error
and the state unchanged. -/

namespace Impl

/-- `AvailabilityService.isAvailable(equipmentId, period)`. -/
def isAvailable (st : SysState) (equipmentId : String)
    (period : Option (Int × Int)) : Except String Bool × SysState :=
  (Except.error "Not implemented", st)

/-- `LoanService.createLoanFromRequest(request)`. -/
def createLoanFromRequest (st : SysState) (request : LoanRequest) :
    Except String Loan × SysState :=
  (Except.error "Not implemented", st)

/-- `LoanService.returnLoan(loanId)`. -/
def returnLoan (st : SysState) (loanId : String) :
    Except String Unit × SysState :=
  (Except.error "Not implemented", st)

/-- `NotificationService.send(to, message)`. -/
def send (st : SysState) (recipient message : String) :
    Except String Unit × SysState :=
  (Except.error "Not implemented", st)

/-- `PaymentService.payFine(fineId, cardToken)`. -/
def payFine (st : SysState) (fineId cardToken : String) :
    Except String Unit × SysState :=
  (Except.error "Not implemented", st)

/-- `OverdueService.runDailyCheck(now)`. -/
def runDailyCheck (st : SysState) (now : Int) :
    Except String Unit × SysState :=
  (Except.error "Not implemented", st)

/-- `ApprovalController.submitRequest(equipmentId, studentId, start, end)`. -/
def submitRequest (st : SysState) (equipmentId studentId : String)
    (startDate endDate : Int) : Except String String × SysState :=
  (Except.error "Not implemented", st)

/-- `ApprovalController.reviewRequest(requestId, decision)`. -/
def reviewRequest (st : SysState) (requestId decision : String) :
    Except String Unit × SysState :=
  (Except.error "Not implemented", st)

end Impl

/-! ## Specification model of the unimplemented operations (`Spec`)

The service and controller bodies are absent from the source (only stubs
that throw).  The following definitions are modelled from the
specification text (§4.2-§4.6) so the behavioural claims about those
operations can be settled. -/

namespace Spec

/-- Modelled from the spec: §4.2 — a Loan with status Active or Overdue on
this equipment blocks it entirely. -/
def loanBlocks (l : Loan) (equipmentId : String) : Bool :=
  l.equipmentId == equipmentId &&
    (l.status == "Active" || l.status == "Overdue")

/-- Modelled from the spec: §4.2 — a Pending or Approved request on this
equipment whose half-open range `[startDate, endDate)` overlaps the
candidate range blocks it. -/
def requestBlocks (r : LoanRequest) (equipmentId : String)
    (s e : Int) : Bool :=
  r.equipmentId == equipmentId &&
    (r.status == "Pending" || r.status == "Approved") &&
    decide (r.startDate < e) && decide (s < r.endDate)

/-- Modelled from the spec: §4.2 Availability Check.  Equipment is
available for a candidate range iff it does not carry global status
Loaned, no Active/Overdue loan exists for it, and no Pending/Approved
request on it overlaps the range. -/
def isAvailable (st : SysState) (equipmentId : String) (s e : Int) : Bool :=
  st.equipments.all (fun eq => !(eq.id == equipmentId) || !(eq.status == "Loaned")) &&
    st.loans.all (fun l => !(loanBlocks l equipmentId)) &&
    st.requests.all (fun r => !(requestBlocks r equipmentId s e))

/-- Modelled from the spec: §4.3 `submitRequest`.  ValidationError if
`start ≥ end` or `start` is before the injected clock `now`;
AvailabilityError if the Availability Check returns false; otherwise a
Pending LoanRequest is created and its id returned. -/
def submitRequest (now : Int) (equipmentId studentId : String)
    (s e : Int) (st : SysState) : Except DomainError String × SysState :=
  if s ≥ e ∨ s < now then
    (Except.error DomainError.ValidationError, st)
  else if isAvailable st equipmentId s e then
    let rid := "R" ++ toString st.nextId
    (Except.ok rid,
      { st with
        nextId := st.nextId + 1,
        requests := st.requests ++
          [LoanRequest.construct now rid studentId equipmentId s e none none] })
  else
    (Except.error DomainError.AvailabilityError, st)

/-- Modelled from the spec: §4.3 Approve branch — create a Loan (status
Active, dueDate from the due-date policy), set the equipment's status to
Loaned and the request's status to Approved, as one atomic update. -/
def approveUpdates (pol : Int → Option Equipment → Int) (r : LoanRequest)
    (st : SysState) : SysState :=
  let due := pol r.startDate (findEquipment st r.equipmentId)
  { st with
    nextId := st.nextId + 1,
    loans := st.loans ++
      [Loan.construct ("L" ++ toString st.nextId) r.studentId r.equipmentId
        r.startDate due none none],
    equipments := st.equipments.map (fun eq =>
      if eq.id == r.equipmentId then { eq with status := "Loaned" } else eq),
    requests := st.requests.map (fun q =>
      if q.id == r.id then { q with status := "Approved" } else q) }

/-- Modelled from the spec: §4.3 `reviewRequest`.  NotFoundError for an
unknown id, InvalidStateError if the request is not Pending; Approve
re-validates availability then applies `approveUpdates`; Reject marks the
request Rejected. -/
def reviewRequest (pol : Int → Option Equipment → Int) (rid : String)
    (dec : Decision) (st : SysState) : Except DomainError Unit × SysState :=
  match findRequest st rid with
  | none => (Except.error DomainError.NotFoundError, st)
  | some r =>
    if r.status = "Pending" then
      match dec with
      | Decision.Approve =>
        if isAvailable st r.equipmentId r.startDate r.endDate then
          (Except.ok (), approveUpdates pol r st)
        else
          (Except.error DomainError.AvailabilityError, st)
      | Decision.Reject =>
        (Except.ok (),
          { st with requests := st.requests.map (fun q =>
              if q.id == rid then { q with status := "Rejected" } else q) })
    else
      (Except.error DomainError.InvalidStateError, st)

/-- Modelled from the spec: §4.4 `returnLoan`.  NotFoundError if unknown,
InvalidStateError if already Closed; otherwise the loan becomes Closed
with `returnedAt = now` and the equipment becomes Available. -/
def returnLoan (now : Int) (lid : String) (st : SysState) :
    Except DomainError Unit × SysState :=
  match findLoan st lid with
  | none => (Except.error DomainError.NotFoundError, st)
  | some l =>
    if l.status = "Closed" then
      (Except.error DomainError.InvalidStateError, st)
    else
      (Except.ok (),
        { st with
          loans := st.loans.map (fun x =>
            if x.id == lid then
              { x with status := "Closed", returnedAt := some now }
            else x),
          equipments := st.equipments.map (fun eq =>
            if eq.id == l.equipmentId then { eq with status := "Available" }
            else eq) })

/-- Modelled from the spec: §4.5 — a loan the sweep treats as overdue:
status Active or Overdue, not returned, and `now > dueDate`. -/
def isOverdueCandidate (now : Int) (l : Loan) : Bool :=
  (l.status == "Active" || l.status == "Overdue") &&
    l.returnedAt == none && decide (l.dueDate < now)

/-- Modelled from the spec: §4.5 — mark the loan with the given id
Overdue on first detection. -/
def markOverdue (loans : List Loan) (lid : String) : List Loan :=
  loans.map (fun x => if x.id == lid then { x with status := "Overdue" } else x)

/-- Modelled from the spec: §4.5 — processing of a single scanned loan:
mark it Overdue, and create exactly one Unpaid fine (amount from the
pluggable fine policy) unless `FineRepo.findByLoan` already reports a fine
for this loan. -/
def sweepStep (finePolicy : Loan → Int → Int) (now : Int)
    (st : SysState) (l : Loan) : SysState :=
  if isOverdueCandidate now l then
    if (st.fines.filter (fun f => f.loanId == l.id)).isEmpty then
      { st with
        loans := markOverdue st.loans l.id,
        nextId := st.nextId + 1,
        fines := st.fines ++
          [Fine.construct now ("F" ++ toString st.nextId) l.id
            (finePolicy l now) none none none none] }
    else
      { st with loans := markOverdue st.loans l.id }
  else st

/-- Modelled from the spec: §4.5 `runDailyCheck` — scan all loans and
apply `sweepStep` to each. -/
def runDailyCheck (finePolicy : Loan → Int → Int) (now : Int)
    (st : SysState) : SysState :=
  st.loans.foldl (sweepStep finePolicy now) st

/-- Modelled from the spec: §4.6 `payFine`.  NotFoundError if unknown,
InvalidStateError if already Paid, PaymentError when the gateway charge
fails (state untouched); on success status, `paidAt` and `receiptRef` are
set together.  The gateway is a pure parameter: `charge amount cardToken`
returns `some reference` or `none` (declined/failed). -/
def payFine (charge : Int → String → Option String) (now : Int)
    (fid cardToken : String) (st : SysState) :
    Except DomainError String × SysState :=
  match findFine st fid with
  | none => (Except.error DomainError.NotFoundError, st)
  | some f =>
    if f.status = "Paid" then
      (Except.error DomainError.InvalidStateError, st)
    else
      match charge f.amountCents cardToken with
      | none => (Except.error DomainError.PaymentError, st)
      | some ref =>
        (Except.ok ref,
          { st with fines := st.fines.map (fun g =>
              if g.id == fid then
                { g with status := "Paid", paidAt := some now, receiptRef := some ref }
              else g) })

/-- Adding an equipment item through its repository (`EquipmentRepo.add`
of an equipment built by the default constructor). -/
def addEquipment (name category : String) (st : SysState) : SysState :=
  { st with
    nextId := st.nextId + 1,
    equipments := st.equipments ++
      [Equipment.construct ("E" ++ toString st.nextId) name category none] }

/-- Adding a user through its repository (`UserRepo.add`). -/
def addUser (u : User) (st : SysState) : SysState :=
  { st with users := st.users ++ [u] }

/-- The states reachable from the empty initial state through the public
operations (any injected clock values, due-date policy, fine policy and
payment gateway behaviour at each step). -/
inductive Reachable : SysState → Prop where
  | init : Reachable initState
  | addUser (u : User) (st : SysState) :
      Reachable st → Reachable (addUser u st)
  | addEquipment (name category : String) (st : SysState) :
      Reachable st → Reachable (addEquipment name category st)
  | submit (now : Int) (equipmentId studentId : String) (s e : Int)
      (st : SysState) : Reachable st →
      Reachable (submitRequest now equipmentId studentId s e st).2
  | review (pol : Int → Option Equipment → Int) (rid : String)
      (dec : Decision) (st : SysState) : Reachable st →
      Reachable (reviewRequest pol rid dec st).2
  | ret (now : Int) (lid : String) (st : SysState) : Reachable st →
      Reachable (returnLoan now lid st).2
  | sweep (finePolicy : Loan → Int → Int) (now : Int) (st : SysState) :
      Reachable st → Reachable (runDailyCheck finePolicy now st)
  | pay (charge : Int → String → Option String) (now : Int)
      (fid cardToken : String) (st : SysState) : Reachable st →
      Reachable (payFine charge now fid cardToken st).2

/-- Is this loan an Active loan of the given equipment item? -/
def isActiveFor (equipmentId : String) (l : Loan) : Bool :=
  l.equipmentId == equipmentId && l.status == "Active"

/-- Number of Active loans recorded for a given equipment item. -/
def activeCount (st : SysState) (equipmentId : String) : Nat :=
  st.loans.countP (isActiveFor equipmentId)

/-- The §3 invariant: every equipment item has at most one Active loan. -/
def AtMostOneActive (st : SysState) : Prop :=
  ∀ equipmentId, activeCount st equipmentId ≤ 1

/-- The §4.6 observability invariant: a fine is Paid exactly when its
`paidAt` and its `receiptRef` are set. -/
def FinesConsistent (st : SysState) : Prop :=
  ∀ f ∈ st.fines,
    (f.status = "Paid" ↔ f.paidAt ≠ none) ∧
    (f.status = "Paid" ↔ f.receiptRef ≠ none)

end Spec

/-! ## Sample data used by the concrete witnesses -/

/-- A sample active loan, due at time 5. -/
def loanW : Loan := ⟨"L1", "u1", "E1", 0, 5, "Active", none⟩

/-- A sample loaned equipment item. -/
def equipmentW : Equipment := ⟨"E1", "Canon R5", "Camera", "Loaned"⟩

/-- A sample unpaid fine on loan `L1`. -/
def fineW : Fine := ⟨"F1", "L1", 500, "Unpaid", 6, none, none⟩

/-- A sample state holding one overdue-to-be loan. -/
def stLoanW : SysState := ⟨[], [equipmentW], [], [loanW], [], 2⟩

/-- A sample state holding one unpaid fine. -/
def stFineW : SysState := ⟨[], [], [], [loanW], [fineW], 3⟩

/-- A sample fine policy: a flat 500 cents. -/
def finePolicyW : Loan → Int → Int := fun _ _ => 500

/-- A sample always-successful payment gateway. -/
def chargeW : Int → String → Option String := fun _ _ => some "RCPT-1"

/-! ## Basic date lemmas -/

theorem jsSetUTCDate_shift (t days : Int) :
    jsSetUTCDate t (jsGetUTCDate t + days) = t + days * msPerDay := by
  unfold jsSetUTCDate
  ring_nf

theorem fixedDays_calculate_eq (s : FixedDaysStrategy) (startDate : Int) :
    s.calculate startDate = startDate + s.days * msPerDay := by
  unfold FixedDaysStrategy.calculate
  exact jsSetUTCDate_shift startDate s.days

theorem categoryBased_calculate_eq (s : CategoryBasedStrategy)
    (startDate : Int) (equipment : Option Equipment) :
    s.calculate startDate equipment =
      startDate + ((match equipment with
        | some e => rulesLookup s.rules e.category
        | none => none).getD 7) * msPerDay := by
  unfold CategoryBasedStrategy.calculate
  exact jsSetUTCDate_shift startDate _

/-! ## Claim C1 -/

/-- Claim C1: for every start date and every configured `N`,
`FixedDaysStrategy.calculate(startDate)` returns `startDate` plus `N`
calendar days in UTC, with no time-of-day or weekend/holiday adjustment;
in particular 2024-01-01 with `N = 7` gives 2024-01-08. -/
theorem claim_C1_fixedDays_calculate (s : FixedDaysStrategy)
    (startDate : Int) :
    s.calculate startDate = startDate + s.days * msPerDay ∧
    (FixedDaysStrategy.mk 7).calculate (utcDate 2024 1 1) =
      utcDate 2024 1 8 := by
  refine ⟨fixedDays_calculate_eq s startDate, ?_⟩
  decide

/-! ## Claim C2 -/

/-- Claim C2: `CategoryBasedStrategy.calculate(startDate, equipment)`
returns `startDate` plus the configured number of days for the equipment's
category, and `startDate` plus 7 days when the category has no rule; it is
total (never raises).  With rules `{Camera: 3}`, category `"Camera"` gives
start+3 days and category `"Chair"` gives start+7 days. -/
theorem claim_C2_categoryBased_calculate (s : CategoryBasedStrategy)
    (startDate : Int) (e : Equipment) :
    (∀ d, rulesLookup s.rules e.category = some d →
      s.calculate startDate (some e) = startDate + d * msPerDay) ∧
    (rulesLookup s.rules e.category = none →
      s.calculate startDate (some e) = startDate + 7 * msPerDay) ∧
    (CategoryBasedStrategy.mk [("Camera", 3)]).calculate startDate
      (some { e with category := "Camera" }) = startDate + 3 * msPerDay ∧
    (CategoryBasedStrategy.mk [("Camera", 3)]).calculate startDate
      (some { e with category := "Chair" }) = startDate + 7 * msPerDay := by
  refine ⟨?_, ?_, ?_, ?_⟩
  · intro d hd
    rw [categoryBased_calculate_eq]
    simp [hd]
  · intro hn
    rw [categoryBased_calculate_eq]
    simp [hn]
  · rw [categoryBased_calculate_eq]
    simp [rulesLookup]
  · rw [categoryBased_calculate_eq]
    simp [rulesLookup]

/-- Witness for claim C2 at concrete inputs: the `Camera` rule applies and
an unconfigured category falls back to 7 days. -/
theorem claim_C2_witness :
    (CategoryBasedStrategy.mk [("Camera", 3)]).calculate 0
        (some (Equipment.construct "E1" "Cam" "Camera" none)) =
      0 + 3 * msPerDay ∧
    (CategoryBasedStrategy.mk [("Camera", 3)]).calculate 0
        (some (Equipment.construct "E2" "Chair" "Chair" none)) =
      0 + 7 * msPerDay :=
  ⟨(claim_C2_categoryBased_calculate (CategoryBasedStrategy.mk [("Camera", 3)])
      0 (Equipment.construct "E1" "Cam" "Camera" none)).1 3 (by decide),
   (claim_C2_categoryBased_calculate (CategoryBasedStrategy.mk [("Camera", 3)])
      0 (Equipment.construct "E2" "Chair" "Chair" none)).2.1 (by decide)⟩

/-! ## Claim C8 -/

/-- Claim C8 counterexample: the program constructs person records (via
the `Student` subclass constructor) whose `role` is neither `"Requester"`
nor `"Approver"` — the source's roles are `'Student'` and `'Staff'`. -/
theorem claim_C8_counterexample :
    ¬ ((Student.make "s1" "Ada" "ada@uni.example").role = "Requester" ∨
       (Student.make "s1" "Ada" "ada@uni.example").role = "Approver") := by
  decide

/-- Claim C8 (amended): every person record the program constructs has a
`role` field whose value is one of `Student` or `Staff` — stored as data
on `User`, assigned by the `Student` / `Staff` subclass constructors. -/
theorem claim_C8_roles_student_staff (id name email : String) :
    ((Student.make id name email).role = "Student" ∨
      (Student.make id name email).role = "Staff") ∧
    ((Staff.make id name email).role = "Student" ∨
      (Staff.make id name email).role = "Staff") ∧
    (Student.make id name email).role = "Student" ∧
    (Staff.make id name email).role = "Staff" :=
  ⟨Or.inl rfl, Or.inr rfl, rfl, rfl⟩

/-! ## Claim C9 -/

/-- Claim C9: every service and controller method of the source
unconditionally throws `Error('Not implemented')` for every input, and no
call mutates any entity or repository state. -/
theorem claim_C9_all_methods_throw (st : SysState)
    (equipmentId studentId loanId fineId cardToken requestId decision
      recipient message : String) (period : Option (Int × Int))
    (request : LoanRequest) (startDate endDate now : Int) :
    Impl.isAvailable st equipmentId period = (Except.error "Not implemented", st) ∧
    Impl.createLoanFromRequest st request = (Except.error "Not implemented", st) ∧
    Impl.returnLoan st loanId = (Except.error "Not implemented", st) ∧
    Impl.send st recipient message = (Except.error "Not implemented", st) ∧
    Impl.payFine st fineId cardToken = (Except.error "Not implemented", st) ∧
    Impl.runDailyCheck st now = (Except.error "Not implemented", st) ∧
    Impl.submitRequest st equipmentId studentId startDate endDate =
      (Except.error "Not implemented", st) ∧
    Impl.reviewRequest st requestId decision =
      (Except.error "Not implemented", st) :=
  ⟨rfl, rfl, rfl, rfl, rfl, rfl, rfl, rfl⟩

/-! ## Claim C10 -/

/-- Claim C10: constructed without an explicit status, an `Equipment` is
`Available`, a `LoanRequest` is `Pending`, a `Loan` is `Active` with
`returnedAt` unset, and a `Fine` is `Unpaid` with `paidAt` and
`receiptRef` both unset. -/
theorem claim_C10_constructor_defaults (now s e due amt : Int)
    (i n c sid eqid lid fid : String) :
    (Equipment.construct i n c none).status = "Available" ∧
    (LoanRequest.construct now i sid eqid s e none none).status = "Pending" ∧
    (Loan.construct i sid eqid s due none none).status = "Active" ∧
    (Loan.construct i sid eqid s due none none).returnedAt = none ∧
    (Fine.construct now fid lid amt none none none none).status = "Unpaid" ∧
    (Fine.construct now fid lid amt none none none none).paidAt = none ∧
    (Fine.construct now fid lid amt none none none none).receiptRef = none :=
  ⟨rfl, rfl, rfl, rfl, rfl, rfl, rfl⟩

/-! ## Overdue sweep lemmas (claim C3) -/

theorem countFines_empty_iff (st : SysState) (lid : String) :
    (st.fines.filter (fun f => f.loanId == lid)).isEmpty = true ↔
      countFines st lid = 0 := by
  rw [List.isEmpty_iff, countFines, List.countP_eq_length_filter,
    List.length_eq_zero]

theorem countFines_sweepStep (fp : Loan → Int → Int) (now : Int)
    (st : SysState) (l : Loan) (lid : String) :
    countFines (Spec.sweepStep fp now st l) lid =
      if Spec.isOverdueCandidate now l = true ∧ countFines st l.id = 0 ∧
          l.id = lid
      then countFines st lid + 1 else countFines st lid := by
  unfold Spec.sweepStep
  split
  case isTrue hc =>
    split
    case isTrue he =>
      have h0 : countFines st l.id = 0 := (countFines_empty_iff st l.id).mp he
      by_cases hid : l.id = lid
      · subst hid
        rw [if_pos ⟨hc, h0, rfl⟩]
        simp [countFines, List.countP_append, List.countP_cons, Fine.construct]
      · have hbeq : (l.id == lid) = false := beq_eq_false_iff_ne.mpr hid
        rw [if_neg (fun h => hid h.2.2)]
        simp [countFines, List.countP_append, List.countP_cons, Fine.construct,
          hbeq]
    case isFalse he =>
      have h0 : ¬ countFines st l.id = 0 := fun h =>
        he ((countFines_empty_iff st l.id).mpr h)
      rw [if_neg (fun h => h0 h.2.1)]
      rfl
  case isFalse hc =>
    rw [if_neg (fun h => hc h.1)]

theorem countFines_sweepStep_mono (fp : Loan → Int → Int) (now : Int)
    (st : SysState) (l : Loan) (lid : String) :
    countFines st lid ≤ countFines (Spec.sweepStep fp now st l) lid := by
  rw [countFines_sweepStep]
  split
  · exact Nat.le_succ _
  · exact Nat.le_refl _

theorem countFines_sweepStep_le (fp : Loan → Int → Int) (now : Int)
    (st : SysState) (l : Loan) (lid : String) :
    countFines (Spec.sweepStep fp now st l) lid ≤
      max 1 (countFines st lid) := by
  rw [countFines_sweepStep]
  split
  case isTrue h =>
    obtain ⟨-, h0, hid⟩ := h
    subst hid
    rw [h0]
    decide
  case isFalse h =>
    exact Nat.le_max_right _ _

theorem one_le_countFines_sweepStep (fp : Loan → Int → Int) (now : Int)
    (st : SysState) (l : Loan)
    (hc : Spec.isOverdueCandidate now l = true) :
    1 ≤ countFines (Spec.sweepStep fp now st l) l.id := by
  rw [countFines_sweepStep]
  by_cases h0 : countFines st l.id = 0
  · simp [hc, h0]
  · simp [hc, h0]
    omega

theorem countFines_foldl_mono (fp : Loan → Int → Int) (now : Int)
    (lid : String) (ls : List Loan) :
    ∀ st : SysState,
      countFines st lid ≤
        countFines (ls.foldl (Spec.sweepStep fp now) st) lid := by
  induction ls with
  | nil => intro st; exact Nat.le_refl _
  | cons x xs ih =>
    intro st
    simp only [List.foldl_cons]
    exact Nat.le_trans (countFines_sweepStep_mono fp now st x lid) (ih _)

theorem countFines_foldl_le (fp : Loan → Int → Int) (now : Int)
    (lid : String) (ls : List Loan) :
    ∀ st : SysState,
      countFines (ls.foldl (Spec.sweepStep fp now) st) lid ≤
        max 1 (countFines st lid) := by
  induction ls with
  | nil => intro st; exact Nat.le_max_right _ _
  | cons x xs ih =>
    intro st
    simp only [List.foldl_cons]
    have h1 := countFines_sweepStep_le fp now st x lid
    have h2 := ih (Spec.sweepStep fp now st x)
    omega

theorem one_le_countFines_foldl (fp : Loan → Int → Int) (now : Int)
    (ls : List Loan) :
    ∀ (st : SysState) (l : Loan), l ∈ ls →
      Spec.isOverdueCandidate now l = true →
      1 ≤ countFines (ls.foldl (Spec.sweepStep fp now) st) l.id := by
  induction ls with
  | nil => intro st l h; cases h
  | cons x xs ih =>
    intro st l hmem hc
    simp only [List.foldl_cons]
    rcases List.mem_cons.mp hmem with h | h
    · subst h
      exact Nat.le_trans (one_le_countFines_sweepStep fp now st l hc)
        (countFines_foldl_mono fp now l.id xs _)
    · exact ih _ l h hc

theorem runDailyCheck_creates_once (fp : Loan → Int → Int) (now : Int)
    (st : SysState) (l : Loan) (hmem : l ∈ st.loans)
    (hc : Spec.isOverdueCandidate now l = true)
    (h0 : countFines st l.id = 0) :
    countFines (Spec.runDailyCheck fp now st) l.id = 1 := by
  unfold Spec.runDailyCheck
  have hle := countFines_foldl_le fp now l.id st.loans st
  have hge := one_le_countFines_foldl fp now st.loans st l hmem hc
  rw [h0] at hle
  omega

theorem countFines_runDailyCheck_stable (fp : Loan → Int → Int) (now : Int)
    (st : SysState) (lid : String) (h1 : countFines st lid = 1) :
    countFines (Spec.runDailyCheck fp now st) lid = 1 := by
  unfold Spec.runDailyCheck
  have hle := countFines_foldl_le fp now lid st.loans st
  have hge := countFines_foldl_mono fp now lid st.loans st
  rw [h1] at hle hge
  omega

/-! ## Claim C3 -/

/-- Claim C3: for an overdue, unreturned loan with no fine yet, the sweep
creates exactly one fine, and re-running it at the same or a later time
(under any fine policy) creates no additional fine for that loan. -/
theorem claim_C3_one_fine_per_episode (fp fp' : Loan → Int → Int)
    (now now' : Int) (st : SysState) (l : Loan)
    (hmem : l ∈ st.loans)
    (hstatus : l.status = "Active" ∨ l.status = "Overdue")
    (hret : l.returnedAt = none)
    (hdue : l.dueDate < now)
    (hnofine : countFines st l.id = 0)
    (hle : now ≤ now') :
    countFines (Spec.runDailyCheck fp now st) l.id = 1 ∧
    countFines
      (Spec.runDailyCheck fp' now' (Spec.runDailyCheck fp now st)) l.id = 1 := by
  have hc : Spec.isOverdueCandidate now l = true := by
    unfold Spec.isOverdueCandidate
    rcases hstatus with h | h <;> simp [h, hret, hdue]
  have h1 := runDailyCheck_creates_once fp now st l hmem hc hnofine
  exact ⟨h1, countFines_runDailyCheck_stable fp' now' _ l.id h1⟩

/-- Witness for claim C3: a concrete overdue loan gets exactly one fine
across two sweeps at time 10. -/
theorem claim_C3_witness :
    countFines (Spec.runDailyCheck finePolicyW 10 stLoanW) loanW.id = 1 ∧
    countFines
      (Spec.runDailyCheck finePolicyW 10
        (Spec.runDailyCheck finePolicyW 10 stLoanW)) loanW.id = 1 :=
  claim_C3_one_fine_per_episode finePolicyW finePolicyW 10 10 stLoanW loanW
    (by decide) (Or.inl (by decide)) (by decide) (by decide) (by decide)
    (by decide)

/-! ## Loan lifecycle lemmas (claim C4) -/

theorem countP_map_le {α : Type} (p : α → Bool) (g : α → α)
    (h : ∀ x, p (g x) = true → p x = true) :
    ∀ l : List α, (l.map g).countP p ≤ l.countP p := by
  intro l
  induction l with
  | nil => simp
  | cons x xs ih =>
    simp only [List.map_cons, List.countP_cons]
    by_cases hx : p (g x) = true
    · rw [if_pos hx, if_pos (h x hx)]
      omega
    · rw [if_neg hx]
      split <;> omega

theorem submitRequest_loans (now : Int) (eqid sid : String) (s e : Int)
    (st : SysState) :
    (Spec.submitRequest now eqid sid s e st).2.loans = st.loans := by
  unfold Spec.submitRequest
  split
  · rfl
  · split <;> rfl

theorem payFine_loans (charge : Int → String → Option String) (now : Int)
    (fid tok : String) (st : SysState) :
    (Spec.payFine charge now fid tok st).2.loans = st.loans := by
  unfold Spec.payFine
  split
  · rfl
  · split
    · rfl
    · split <;> rfl

theorem activeCount_markOverdue_le (loans : List Loan) (lid eqid : String) :
    (Spec.markOverdue loans lid).countP (Spec.isActiveFor eqid) ≤
      loans.countP (Spec.isActiveFor eqid) := by
  apply countP_map_le
  intro x hx
  by_cases hid : (x.id == lid) = true
  · rw [if_pos hid] at hx
    simp [Spec.isActiveFor] at hx
  · rwa [if_neg hid] at hx

theorem activeCount_sweepStep_le (fp : Loan → Int → Int) (now : Int)
    (st : SysState) (l : Loan) (eqid : String) :
    Spec.activeCount (Spec.sweepStep fp now st l) eqid ≤
      Spec.activeCount st eqid := by
  unfold Spec.sweepStep Spec.activeCount
  split
  · split
    · exact activeCount_markOverdue_le st.loans l.id eqid
    · exact activeCount_markOverdue_le st.loans l.id eqid
  · exact Nat.le_refl _

theorem activeCount_runDailyCheck_le (fp : Loan → Int → Int) (now : Int)
    (st : SysState) (eqid : String) :
    Spec.activeCount (Spec.runDailyCheck fp now st) eqid ≤
      Spec.activeCount st eqid := by
  unfold Spec.runDailyCheck
  generalize st.loans = ls
  induction ls generalizing st with
  | nil => exact Nat.le_refl _
  | cons x xs ih =>
    simp only [List.foldl_cons]
    exact Nat.le_trans (ih (Spec.sweepStep fp now st x))
      (activeCount_sweepStep_le fp now st x eqid)

theorem activeCount_returnLoan_le (now : Int) (lid : String)
    (st : SysState) (eqid : String) :
    Spec.activeCount (Spec.returnLoan now lid st).2 eqid ≤
      Spec.activeCount st eqid := by
  unfold Spec.returnLoan
  split
  · exact Nat.le_refl _
  · split
    · exact Nat.le_refl _
    · unfold Spec.activeCount
      apply countP_map_le
      intro x hx
      by_cases hid : (x.id == lid) = true
      · rw [if_pos hid] at hx
        simp [Spec.isActiveFor] at hx
      · rwa [if_neg hid] at hx

theorem zero_active_of_available (st : SysState) (eqid : String)
    (s e : Int) (h : Spec.isAvailable st eqid s e = true) :
    st.loans.countP (Spec.isActiveFor eqid) = 0 := by
  unfold Spec.isAvailable at h
  rw [Bool.and_eq_true, Bool.and_eq_true] at h
  obtain ⟨⟨-, hloans⟩, -⟩ := h
  rw [List.all_eq_true] at hloans
  rw [List.countP_eq_zero]
  intro a ha hact
  have hb := hloans a ha
  unfold Spec.loanBlocks at hb
  unfold Spec.isActiveFor at hact
  rw [Bool.and_eq_true] at hact
  obtain ⟨h1, h2⟩ := hact
  simp [h1, h2] at hb

theorem atMostOne_reviewRequest (pol : Int → Option Equipment → Int)
    (rid : String) (dec : Decision) (st : SysState)
    (h : Spec.AtMostOneActive st) :
    Spec.AtMostOneActive (Spec.reviewRequest pol rid dec st).2 := by
  unfold Spec.reviewRequest
  split
  · exact h
  case _ r heq =>
    split
    · split
      · split
        case isTrue hav =>
          intro eqid
          unfold Spec.approveUpdates Spec.activeCount
          simp only [List.countP_append]
          by_cases he : r.equipmentId = eqid
          · subst he
            rw [zero_active_of_available st r.equipmentId r.startDate
              r.endDate hav]
            simp only [List.countP_cons, List.countP_nil, Nat.zero_add]
            split <;> omega
          · have hnew : Spec.isActiveFor eqid
                (Loan.construct ("L" ++ toString st.nextId) r.studentId
                  r.equipmentId r.startDate
                  (pol r.startDate (findEquipment st r.equipmentId))
                  none none) = false := by
              unfold Spec.isActiveFor Loan.construct
              simp [beq_eq_false_iff_ne.mpr he]
            simp only [List.countP_cons, List.countP_nil, hnew]
            simpa using h eqid
        case isFalse => exact h
      · exact h
    · exact h

theorem reachable_atMostOneActive (st : SysState)
    (h : Spec.Reachable st) : Spec.AtMostOneActive st := by
  induction h with
  | init => intro eqid; simp [Spec.activeCount, initState]
  | addUser u st h ih => exact fun eqid => ih eqid
  | addEquipment nm ct st h ih => exact fun eqid => ih eqid
  | submit now eqid sid s e st h ih =>
    intro q
    unfold Spec.activeCount
    rw [submitRequest_loans]
    exact ih q
  | review pol rid dec st h ih => exact atMostOne_reviewRequest pol rid dec st ih
  | ret now lid st h ih =>
    exact fun q => Nat.le_trans (activeCount_returnLoan_le now lid st q) (ih q)
  | sweep fp now st h ih =>
    exact fun q =>
      Nat.le_trans (activeCount_runDailyCheck_le fp now st q) (ih q)
  | pay charge now fid tok st h ih =>
    intro q
    unfold Spec.activeCount
    rw [payFine_loans]
    exact ih q

/-! ## Claim C4 -/

/-- Claim C4: in every state reachable through the public operations,
every equipment item has at most one Loan whose status is Active. -/
theorem claim_C4_at_most_one_active_loan (st : SysState)
    (h : Spec.Reachable st) : Spec.AtMostOneActive st :=
  reachable_atMostOneActive st h

/-- Witness for claim C4: the invariant at the (reachable) initial state. -/
theorem claim_C4_witness : Spec.AtMostOneActive initState :=
  claim_C4_at_most_one_active_loan initState Spec.Reachable.init

/-! ## Return and lookup lemmas (claims C5, C6, C7) -/

theorem find?_map_of_pred_eq {α : Type} (g : α → α) (p : α → Bool)
    (hg : ∀ x, p (g x) = p x) (ls : List α) :
    (ls.map g).find? p = (ls.find? p).map g := by
  have hp : p ∘ g = p := funext hg
  rw [List.find?_map, hp]

theorem claim_C6_returnLoan_aux (now : Int) (lid : String) (st : SysState)
    (l : Loan) (hl : findLoan st lid = some l) (hcl : l.status ≠ "Closed") :
    Spec.returnLoan now lid st =
      (Except.ok (),
        { st with
          loans := st.loans.map (fun x =>
            if x.id == lid then
              { x with status := "Closed", returnedAt := some now }
            else x),
          equipments := st.equipments.map (fun eq =>
            if eq.id == l.equipmentId then { eq with status := "Available" }
            else eq) }) := by
  unfold Spec.returnLoan
  simp only [hl]
  rw [if_neg hcl]

theorem returnLoan_findLoan (now : Int) (lid : String) (st : SysState)
    (l : Loan) (hl : findLoan st lid = some l) (hcl : l.status ≠ "Closed") :
    findLoan (Spec.returnLoan now lid st).2 lid =
      some { l with status := "Closed", returnedAt := some now } := by
  rw [claim_C6_returnLoan_aux now lid st l hl hcl]
  unfold findLoan at hl ⊢
  rw [find?_map_of_pred_eq _ _ ?hg]
  case hg =>
    intro x
    by_cases hid : (x.id == lid) = true
    · rw [if_pos hid]
    · rw [if_neg hid]
  rw [hl]
  have hbeq : (l.id == lid) = true :=
    @List.find?_some Loan (fun x => x.id == lid) l st.loans hl
  simp only [Option.map_some']
  rw [if_pos hbeq]

/-! ## Claim C6 -/

/-- Claim C6: `returnLoan` on an unknown id fails with NotFoundError; the
first call on a not-yet-Closed loan succeeds, closing the loan with
`returnedAt = now` and freeing the equipment; a second call fails with
InvalidStateError and leaves all state unchanged. -/
theorem claim_C6_returnLoan_lifecycle (now now' : Int) (lid : String)
    (st : SysState) :
    (findLoan st lid = none →
      Spec.returnLoan now lid st =
        (Except.error DomainError.NotFoundError, st)) ∧
    (∀ l, findLoan st lid = some l → l.status ≠ "Closed" →
      (Spec.returnLoan now lid st).1 = Except.ok () ∧
      findLoan (Spec.returnLoan now lid st).2 lid =
        some { l with status := "Closed", returnedAt := some now } ∧
      (∀ e ∈ (Spec.returnLoan now lid st).2.equipments,
        e.id = l.equipmentId → e.status = "Available") ∧
      Spec.returnLoan now' lid (Spec.returnLoan now lid st).2 =
        (Except.error DomainError.InvalidStateError,
          (Spec.returnLoan now lid st).2)) := by
  constructor
  · intro hn
    unfold Spec.returnLoan
    simp only [hn]
  · intro l hl hcl
    have hfind := returnLoan_findLoan now lid st l hl hcl
    have hres := claim_C6_returnLoan_aux now lid st l hl hcl
    refine ⟨by rw [hres], hfind, ?_, ?_⟩
    · intro e he heid
      rw [hres] at he
      rcases List.mem_map.mp he with ⟨x, hx, rfl⟩
      by_cases hxe : (x.id == l.equipmentId) = true
      · rw [if_pos hxe]
      · rw [if_neg hxe] at heid ⊢
        exact absurd (beq_iff_eq.mpr heid) (by simpa using hxe)
    · set stR := (Spec.returnLoan now lid st).2 with hstR
      unfold Spec.returnLoan
      simp only [hfind]
      rw [if_pos trivial]

/-- Witness for claim C6: returning the concrete loan `L1` at time 4
succeeds and closes it; a second return at time 9 fails with
InvalidStateError and changes nothing. -/
theorem claim_C6_witness :
    (Spec.returnLoan 4 "L1" stLoanW).1 = Except.ok () ∧
    findLoan (Spec.returnLoan 4 "L1" stLoanW).2 "L1" =
      some { loanW with status := "Closed", returnedAt := some (4 : Int) } ∧
    (∀ e ∈ (Spec.returnLoan 4 "L1" stLoanW).2.equipments,
      e.id = loanW.equipmentId → e.status = "Available") ∧
    Spec.returnLoan 9 "L1" (Spec.returnLoan 4 "L1" stLoanW).2 =
      (Except.error DomainError.InvalidStateError,
        (Spec.returnLoan 4 "L1" stLoanW).2) :=
  (claim_C6_returnLoan_lifecycle 4 9 "L1" stLoanW).2 loanW (by decide)
    (by decide)

/-! ## Claim C7 -/

/-- Claim C7: `submitRequest` fails with ValidationError when `start ≥ end`
or `start` is before the injected clock, fails with AvailabilityError when
the Availability Check returns false, and otherwise creates a Pending
LoanRequest and returns its id. -/
theorem claim_C7_submitRequest_contract (now s e : Int) (eqid sid : String)
    (st : SysState) :
    ((s ≥ e ∨ s < now) →
      Spec.submitRequest now eqid sid s e st =
        (Except.error DomainError.ValidationError, st)) ∧
    (¬(s ≥ e ∨ s < now) → Spec.isAvailable st eqid s e = false →
      Spec.submitRequest now eqid sid s e st =
        (Except.error DomainError.AvailabilityError, st)) ∧
    (¬(s ≥ e ∨ s < now) → Spec.isAvailable st eqid s e = true →
      ∃ rid, (Spec.submitRequest now eqid sid s e st).1 = Except.ok rid ∧
        ∃ r, r ∈ (Spec.submitRequest now eqid sid s e st).2.requests ∧
          r.id = rid ∧ r.status = "Pending" ∧ r.equipmentId = eqid ∧
          r.studentId = sid ∧ r.startDate = s ∧ r.endDate = e) := by
  refine ⟨?_, ?_, ?_⟩
  · intro hv
    unfold Spec.submitRequest
    rw [if_pos hv]
  · intro hv ha
    unfold Spec.submitRequest
    rw [if_neg hv]
    simp [ha]
  · intro hv ha
    unfold Spec.submitRequest
    rw [if_neg hv, if_pos ha]
    refine ⟨"R" ++ toString st.nextId, rfl,
      LoanRequest.construct now ("R" ++ toString st.nextId) sid eqid s e
        none none, ?_, rfl, rfl, rfl, rfl, rfl, rfl⟩
    exact List.mem_append.mpr (Or.inr (List.mem_singleton.mpr rfl))

/-- Witness for claim C7: submitting a request for equipment `E9` on the
empty state with a valid future range succeeds with a Pending request. -/
theorem claim_C7_witness :
    ∃ rid, (Spec.submitRequest 0 "E9" "u1" 3 5 initState).1 =
        Except.ok rid ∧
      ∃ r, r ∈ (Spec.submitRequest 0 "E9" "u1" 3 5 initState).2.requests ∧
        r.id = rid ∧ r.status = "Pending" ∧ r.equipmentId = "E9" ∧
        r.studentId = "u1" ∧ r.startDate = 3 ∧ r.endDate = 5 :=
  (claim_C7_submitRequest_contract 0 3 5 "E9" "u1" initState).2.2
    (by decide) (by decide)

/-! ## Fine settlement lemmas (claim C5) -/

theorem submitRequest_fines (now : Int) (eqid sid : String) (s e : Int)
    (st : SysState) :
    (Spec.submitRequest now eqid sid s e st).2.fines = st.fines := by
  unfold Spec.submitRequest
  split
  · rfl
  · split <;> rfl

theorem reviewRequest_fines (pol : Int → Option Equipment → Int)
    (rid : String) (dec : Decision) (st : SysState) :
    (Spec.reviewRequest pol rid dec st).2.fines = st.fines := by
  unfold Spec.reviewRequest
  split
  · rfl
  · split
    · split
      · split <;> rfl
      · rfl
    · rfl

theorem returnLoan_fines (now : Int) (lid : String) (st : SysState) :
    (Spec.returnLoan now lid st).2.fines = st.fines := by
  unfold Spec.returnLoan
  split
  · rfl
  · split <;> rfl

theorem finesConsistent_sweepStep (fp : Loan → Int → Int) (now : Int)
    (st : SysState) (l : Loan) (h : Spec.FinesConsistent st) :
    Spec.FinesConsistent (Spec.sweepStep fp now st l) := by
  unfold Spec.sweepStep
  split
  · split
    · intro f hf
      have hf' : f ∈ st.fines ++
          [Fine.construct now ("F" ++ toString st.nextId) l.id
            (fp l now) none none none none] := hf
      rcases List.mem_append.mp hf' with hmem | hmem
      · exact h f hmem
      · rw [List.mem_singleton] at hmem
        subst hmem
        constructor <;> simp [Fine.construct]
    · intro f hf
      exact h f hf
  · exact h

theorem finesConsistent_runDailyCheck (fp : Loan → Int → Int) (now : Int)
    (st : SysState) (h : Spec.FinesConsistent st) :
    Spec.FinesConsistent (Spec.runDailyCheck fp now st) := by
  unfold Spec.runDailyCheck
  generalize st.loans = ls
  induction ls generalizing st with
  | nil => exact h
  | cons x xs ih =>
    simp only [List.foldl_cons]
    exact ih (Spec.sweepStep fp now st x)
      (finesConsistent_sweepStep fp now st x h)

theorem finesConsistent_payFine (charge : Int → String → Option String)
    (now : Int) (fid tok : String) (st : SysState)
    (h : Spec.FinesConsistent st) :
    Spec.FinesConsistent (Spec.payFine charge now fid tok st).2 := by
  unfold Spec.payFine
  split
  · exact h
  · split
    · exact h
    · split
      · exact h
      case _ ref heq =>
        intro f hf
        have hf' : f ∈ st.fines.map (fun g =>
            if g.id == fid then
              { g with status := "Paid", paidAt := some now, receiptRef := some ref }
            else g) := hf
        rcases List.mem_map.mp hf' with ⟨x, hx, rfl⟩
        by_cases hid : (x.id == fid) = true
        · rw [if_pos hid]
          constructor <;> simp
        · rw [if_neg hid]
          exact h x hx

theorem reachable_finesConsistent (st : SysState) (h : Spec.Reachable st) :
    Spec.FinesConsistent st := by
  induction h with
  | init => intro f hf; cases hf
  | addUser u st h ih => exact fun f hf => ih f hf
  | addEquipment nm ct st h ih => exact fun f hf => ih f hf
  | submit now eqid sid s e st h ih =>
    intro f hf
    rw [submitRequest_fines] at hf
    exact ih f hf
  | review pol rid dec st h ih =>
    intro f hf
    rw [reviewRequest_fines] at hf
    exact ih f hf
  | ret now lid st h ih =>
    intro f hf
    rw [returnLoan_fines] at hf
    exact ih f hf
  | sweep fp now st h ih => exact finesConsistent_runDailyCheck fp now st ih
  | pay charge now fid tok st h ih =>
    exact finesConsistent_payFine charge now fid tok st ih

theorem payFine_success (charge : Int → String → Option String) (now : Int)
    (fid tok : String) (st : SysState) (f : Fine) (ref : String)
    (hf : findFine st fid = some f) (hnp : f.status ≠ "Paid")
    (hch : charge f.amountCents tok = some ref) :
    Spec.payFine charge now fid tok st =
      (Except.ok ref,
        { st with fines := st.fines.map (fun g =>
            if g.id == fid then
              { g with status := "Paid", paidAt := some now, receiptRef := some ref }
            else g) }) := by
  unfold Spec.payFine
  simp only [hf]
  rw [if_neg hnp]
  simp only [hch]

theorem payFine_findFine (charge : Int → String → Option String) (now : Int)
    (fid tok : String) (st : SysState) (f : Fine) (ref : String)
    (hf : findFine st fid = some f) (hnp : f.status ≠ "Paid")
    (hch : charge f.amountCents tok = some ref) :
    findFine (Spec.payFine charge now fid tok st).2 fid =
      some { f with status := "Paid", paidAt := some now, receiptRef := some ref } := by
  rw [payFine_success charge now fid tok st f ref hf hnp hch]
  unfold findFine at hf ⊢
  rw [find?_map_of_pred_eq _ _ ?hg]
  case hg =>
    intro x
    by_cases hid : (x.id == fid) = true
    · rw [if_pos hid]
    · rw [if_neg hid]
  rw [hf]
  have hbeq : (f.id == fid) = true :=
    @List.find?_some Fine (fun x => x.id == fid) f st.fines hf
  simp only [Option.map_some']
  rw [if_pos hbeq]

/-! ## Claim C5 -/

/-- Claim C5: `payFine` fails with NotFoundError on an unknown fine id,
with InvalidStateError when the fine is already Paid, and with
PaymentError on a declined/failed charge, each time leaving the state
(and therefore the fine, still Unpaid) untouched.  On success `status`,
`paidAt` and `receiptRef` are set together, so no reachable state holds a
fine that is Paid without a `receiptRef`/`paidAt` or vice versa, and a
second call fails with InvalidStateError changing nothing (in particular
`amountCents`, `paidAt` and `receiptRef` stay as the first call left
them). -/
theorem claim_C5_payFine_contract (charge : Int → String → Option String)
    (now : Int) (fid tok : String) (st : SysState) :
    (findFine st fid = none →
      Spec.payFine charge now fid tok st =
        (Except.error DomainError.NotFoundError, st)) ∧
    (∀ f, findFine st fid = some f → f.status = "Paid" →
      Spec.payFine charge now fid tok st =
        (Except.error DomainError.InvalidStateError, st)) ∧
    (∀ f, findFine st fid = some f → f.status ≠ "Paid" →
      charge f.amountCents tok = none →
      Spec.payFine charge now fid tok st =
        (Except.error DomainError.PaymentError, st)) ∧
    (∀ f ref, findFine st fid = some f → f.status ≠ "Paid" →
      charge f.amountCents tok = some ref →
      (Spec.payFine charge now fid tok st).1 = Except.ok ref ∧
      findFine (Spec.payFine charge now fid tok st).2 fid =
        some { f with status := "Paid", paidAt := some now, receiptRef := some ref } ∧
      (∀ charge' now' tok',
        Spec.payFine charge' now' fid tok'
            (Spec.payFine charge now fid tok st).2 =
          (Except.error DomainError.InvalidStateError,
            (Spec.payFine charge now fid tok st).2))) ∧
    (∀ s, Spec.Reachable s → Spec.FinesConsistent s) := by
  refine ⟨?_, ?_, ?_, ?_, fun s hs => reachable_finesConsistent s hs⟩
  · intro hn
    unfold Spec.payFine
    simp only [hn]
  · intro f hf hp
    unfold Spec.payFine
    simp only [hf]
    rw [if_pos hp]
  · intro f hf hnp hch
    unfold Spec.payFine
    simp only [hf]
    rw [if_neg hnp]
    simp only [hch]
  · intro f ref hf hnp hch
    have hres := payFine_success charge now fid tok st f ref hf hnp hch
    have hfind := payFine_findFine charge now fid tok st f ref hf hnp hch
    refine ⟨by rw [hres], hfind, ?_⟩
    intro charge' now' tok'
    set stP := (Spec.payFine charge now fid tok st).2 with hstP
    unfold Spec.payFine
    simp only [hfind]
    rw [if_pos trivial]

/-- Witness for claim C5: paying the concrete unpaid fine `F1` with an
accepting gateway succeeds, records the receipt atomically, and a second
payment attempt fails with InvalidStateError changing nothing. -/
theorem claim_C5_witness :
    (Spec.payFine chargeW 7 "F1" "tok" stFineW).1 = Except.ok "RCPT-1" ∧
    findFine (Spec.payFine chargeW 7 "F1" "tok" stFineW).2 "F1" =
      some { fineW with status := "Paid", paidAt := some (7 : Int), receiptRef := some "RCPT-1" } ∧
    (∀ charge' now' tok',
      Spec.payFine charge' now' "F1" tok'
          (Spec.payFine chargeW 7 "F1" "tok" stFineW).2 =
        (Except.error DomainError.InvalidStateError,
          (Spec.payFine chargeW 7 "F1" "tok" stFineW).2)) :=
  (claim_C5_payFine_contract chargeW 7 "F1" "tok" stFineW).2.2.2.1 fineW
    "RCPT-1" (by decide) (by decide) rfl
